import Mathlib

/-!
Verification of the session-state synchronization service of
`packages/mcp-server/src/http-server.ts`: the in-memory versioned session
store, the state/health HTTP API, port negotiation on startup, the expiry
sweeper, and the client-side synchronization state machine embedded in the
served page.

Timestamps (`Date` / `Date.now()`) are modelled as natural numbers
(milliseconds).  The JavaScript `Map` is modelled as an association list
with the `Map.set` semantics (replace in place when the key exists,
append otherwise); well-formed stores have pairwise-distinct keys.
JavaScript truthiness on strings (`!s` / `s || null`) is modelled
explicitly: a string is falsy exactly when it is empty, an
absent/`null`/`undefined` value is falsy.
-/

namespace DrawChart

/-- A session record: `interface SessionState { xml, version, lastUpdated }`. -/
structure SessionState where
  xml : String
  version : Nat
  lastUpdated : Nat
deriving DecidableEq, Repr

/-- The in-memory state store `stateStore : Map<string, SessionState>`,
modelled as an association list in insertion order. -/
abbrev Store := List (String × SessionState)

/-- A store is well formed when its keys are pairwise distinct, as holds
for every JavaScript `Map`. -/
def StoreWF (s : Store) : Prop := (List.map Prod.fst s).Nodup

instance : DecidablePred StoreWF := fun s =>
  inferInstanceAs (Decidable (List.map Prod.fst s).Nodup)

/-- Model of `Map.get`: the value at a key, `none` when absent (first matching entry;
well-formed stores have at most one). -/
def mapGet (k : String) (s : Store) : Option SessionState :=
  (List.find? (fun e => e.1 == k) s).map Prod.snd

/-- Model of `Map.set`: replace the entry in place when the key exists, append otherwise. -/
def mapSet (k : String) (v : SessionState) (s : Store) : Store :=
  if List.any s (fun e => e.1 == k) then
    List.map (fun e => if e.1 == k then (k, v) else e) s
  else
    s ++ [(k, v)]

/-- Source `getState(sessionId)`: `stateStore.get(sessionId)`. -/
def getState (sessionId : String) (s : Store) : Option SessionState :=
  mapGet sessionId s

/-- The version of the existing record, `0` when no record exists:
`existing?.version || 0` (on a number, `|| 0` is the identity, since
`0 || 0` is `0`). -/
def priorVersion (sessionId : String) (s : Store) : Nat :=
  match getState sessionId s with
  | some r => r.version
  | none => 0

/-- Source `setState(sessionId, xml)`: computes `newVersion = (existing?.version || 0) + 1`,
stores `{xml, version: newVersion, lastUpdated: new Date()}`, returns the new
version.  The current time is passed explicitly. -/
def setState (sessionId xml : String) (now : Nat) (s : Store) : Nat × Store :=
  let newVersion := priorVersion sessionId s + 1
  (newVersion, mapSet sessionId ⟨xml, newVersion, now⟩ s)

/-- Constant `SESSION_TTL = 60 * 60 * 1000` (one hour, in milliseconds). -/
def SESSION_TTL : Nat := 60 * 60 * 1000

/-- Source `cleanupExpiredSessions()`: deletes every session with
`now - state.lastUpdated.getTime() > SESSION_TTL` (with the JavaScript
subtraction of a future timestamp being negative, hence never `> TTL`,
matching truncated `Nat` subtraction). -/
def cleanupExpiredSessions (now : Nat) (s : Store) : Store :=
  List.filter (fun e => !(SESSION_TTL < now - e.2.lastUpdated)) s

/-! ## HTTP layer -/

/-- Request method, as dispatched on `req.method`. -/
inductive Method
  | GET
  | POST
  | OPTIONS
  | other (s : String)
deriving DecidableEq, Repr

/-- Outcome of `JSON.parse` plus destructuring `{sessionId, xml}` on a POST
body: `malformed` when the `try` block throws before the `sessionId` check,
otherwise the destructured fields (`sessionId` absent when the parsed object
has none). -/
inductive PostBody
  | malformed
  | parsed (sessionId : Option String) (xml : String)
deriving DecidableEq, Repr

/-- Response bodies, one constructor per `res.end(...)` shape:
`state` is `{xml: string|null, version, lastUpdated: ISO|null}` (the
timestamp stands for its ISO-8601 rendering), `err` is `{error: ...}`,
`postOk` is `{success: true, version}`, `health` is `{status:"ok", mcp:true}`,
`html` is the generated page for a session id, `text` a plain-text body,
`empty` the body-less pre-flight reply. -/
inductive RespBody
  | state (xml : Option String) (version : Nat) (lastUpdated : Option Nat)
  | err (msg : String)
  | postOk (version : Nat)
  | health
  | html (sessionId : String)
  | text (s : String)
  | empty
deriving DecidableEq, Repr

/-- An HTTP response: status code and body. -/
structure Response where
  status : Nat
  body : RespBody
deriving DecidableEq, Repr

/-- An inbound request: method, path, the `sessionId` and `mcp` query
parameters (as `url.searchParams.get` returns them, `none` when absent),
and the parsed POST body. -/
structure Request where
  method : Method
  path : String
  sessionIdParam : Option String
  mcpParam : Option String
  body : PostBody
deriving DecidableEq, Repr

/-- JavaScript truthiness of a string-or-absent value: `null`/`undefined`
and the empty string are falsy. -/
def truthyStr : Option String → Bool
  | none => false
  | some s => !s.isEmpty

/-- Source `handleStateApi(req, res, url)`.  Takes the components it reads (method,
`sessionId` query parameter, parsed body) and the store, returns the
response and the store after the request. -/
def handleStateApi (method : Method) (sessionIdParam : Option String)
    (body : PostBody) (s : Store) (now : Nat) : Response × Store :=
  match method with
  | .GET =>
    if !truthyStr sessionIdParam then
      (⟨400, .err "sessionId required"⟩, s)
    else
      match getState (sessionIdParam.getD "") s with
      | some st =>
        -- xml: state?.xml || null ; version: state?.version || 0 (identity
        -- on a number) ; lastUpdated: state?.lastUpdated?.toISOString() || null
        (⟨200, .state (if st.xml.isEmpty then none else some st.xml)
                      st.version (some st.lastUpdated)⟩, s)
      | none => (⟨200, .state none 0 none⟩, s)
  | .POST =>
    match body with
    | .malformed => (⟨400, .err "Invalid JSON"⟩, s)
    | .parsed sessionId xml =>
      if !truthyStr sessionId then
        (⟨400, .err "sessionId required"⟩, s)
      else
        let (version, s') := setState (sessionId.getD "") xml now s
        (⟨200, .postOk version⟩, s')
  | _ => (⟨405, .text "Method Not Allowed"⟩, s)

/-- Source `serveHtml`: `url.searchParams.get("mcp") || ""` into the page template. -/
def serveHtml (mcpParam : Option String) : Response :=
  ⟨200, .html (if truthyStr mcpParam then mcpParam.getD "" else "")⟩

/-- Source `handleRequest(req, res)`: CORS pre-flight short-circuit, then route by
path.  Returns the response and the store after the request. -/
def handleRequest (req : Request) (s : Store) (now : Nat) : Response × Store :=
  if req.method = .OPTIONS then
    (⟨204, .empty⟩, s)
  else if req.path = "/" ∨ req.path = "/index.html" then
    (serveHtml req.mcpParam, s)
  else if req.path = "/api/state" ∨ req.path = "/api/mcp/state" then
    handleStateApi req.method req.sessionIdParam req.body s now
  else if req.path = "/api/health" ∨ req.path = "/api/mcp/health" then
    (⟨200, .health⟩, s)
  else
    (⟨404, .text "Not Found"⟩, s)

/-! ## Port-negotiating listener -/

/-- Constant `MAX_PORT = 6020`: do not retry beyond this port. -/
def MAX_PORT : Nat := 6020

/-- The default preferred port. -/
def DEFAULT_PORT : Nat := 6002

/-- What binding a given port does: succeeds, fails with `EADDRINUSE`, or
fails with some other error. -/
inductive BindResult
  | ok
  | addrInUse
  | otherErr (msg : String)
deriving DecidableEq, Repr

/-- How a start attempt can fail: the bounded retry ladder is exhausted
(`No available ports in range 6002-6020`), or a non-`EADDRINUSE` bind error
is surfaced as-is. -/
inductive StartError
  | noAvailablePorts
  | other (msg : String)
deriving DecidableEq, Repr

/-- The retry ladder of `startHttpServer`: try `port`; on `EADDRINUSE`
reject with the range error when `port >= MAX_PORT`, otherwise recurse at
`port + 1`; on any other error reject with it.  Returns the outcome and the
list of ports attempted, in order.  `bind` abstracts the socket layer. -/
def tryStart (b : Nat → BindResult) (port : Nat) :
    (Except StartError Nat) × List Nat :=
  match b port with
  | .ok => (.ok port, [port])
  | .addrInUse =>
    if MAX_PORT ≤ port then
      (.error .noAvailablePorts, [port])
    else
      let r := tryStart b (port + 1)
      (r.1, port :: r.2)
  | .otherErr msg => (.error (.other msg), [port])
termination_by MAX_PORT - port
decreasing_by omega

/-- The module-level server state: `server !== null` (a server object is
installed) and `serverPort`. -/
structure SrvState where
  started : Bool
  serverPort : Nat
deriving DecidableEq, Repr

/-- Source `startHttpServer(port)`: if a server is already installed, resolve with
the existing `serverPort` without binding; otherwise run the retry ladder.
On success the bound port is recorded as `serverPort` and the server stays
installed.  On failure the last attempt's server object is still installed
and `serverPort` holds the last port attempted (each recursion level sets
`serverPort = port` before binding and only the retry path clears `server`).
Also returns the list of ports attempted. -/
def startHttpServer (bind : Nat → BindResult) (st : SrvState) (port : Nat) :
    (Except StartError Nat) × SrvState × List Nat :=
  if st.started then
    (.ok st.serverPort, st, [])
  else
    match tryStart bind port with
    | (.ok p, attempts) => (.ok p, ⟨true, p⟩, attempts)
    | (.error e, attempts) =>
      (.error e, ⟨true, (attempts.getLast?).getD port⟩, attempts)

/-- Source `stopHttpServer()`: close and clear the installed server; `serverPort`
is left as is. -/
def stopHttpServer (st : SrvState) : SrvState :=
  if st.started then ⟨false, st.serverPort⟩ else st

/-- Source `getServerPort()`. -/
def getServerPort (st : SrvState) : Nat := st.serverPort

/-! ## Client-side synchronization state machine

The script embedded in the served page: `isDrawioReady`, a single
`pendingXml` slot, a `lastLoadedXml` marker and `currentVersion`.  Calls
into the outside world (`postMessage` load commands, `fetch` pushes) are
returned as a list of actions. -/

/-- Mutable state of the client script. -/
structure ClientState where
  isDrawioReady : Bool
  pendingXml : Option String
  lastLoadedXml : Option String
  currentVersion : Nat
deriving DecidableEq, Repr

/-- The client script's initial state. -/
def initialClientState : ClientState :=
  ⟨false, none, none, 0⟩

/-- Externally visible effects of the client script: a `load` message posted
into the drawing surface, or a push (POST of edited XML) to the server. -/
inductive ClientAction
  | load (xml : String)
  | push (xml : String)
deriving DecidableEq, Repr

/-- Source `loadDiagram(xml)`: when the surface is not ready, stage the XML in the
single pending slot and do nothing else; when ready, record it as last
loaded and post the `load` message. -/
def loadDiagram (xml : String) (st : ClientState) : ClientState × List ClientAction :=
  if !st.isDrawioReady then
    ({ st with pendingXml := some xml }, [])
  else
    ({ st with lastLoadedXml := some xml }, [.load xml])

/-- Messages from the drawing surface, after origin filtering and JSON
parsing (`msg.xml` / `msg.data` are absent when the field is missing). -/
inductive DrawioMsg
  | init
  | save (xml : Option String)
  | exportDone (data : Option String)
  | autosave (xml : Option String)
  | unknown
deriving DecidableEq, Repr

/-- Source `pushState(xml)` as the client issues it: a fire-and-forget POST.  The
asynchronous completion (which updates `currentVersion` and
`lastLoadedXml` on success) is a separate later event, not modelled here;
the handlers below only ever issue the request. -/
def pushState (sessionId xml : String) : List ClientAction :=
  if sessionId.isEmpty then [] else [.push xml]

/-- Source `handleDrawioMessage(msg)`.  On `init`: become ready and, when the
pending slot holds a truthy value, flush it via `loadDiagram` and clear the
slot.  On `save`/`autosave`: push when the XML is truthy and differs from
the last loaded.  On `export`: push when the data is truthy (no
last-loaded comparison in the source). -/
def handleDrawioMessage (sessionId : String) (msg : DrawioMsg)
    (st : ClientState) : ClientState × List ClientAction :=
  match msg with
  | .init =>
    let st1 := { st with isDrawioReady := true }
    if truthyStr st1.pendingXml then
      let r := loadDiagram (st1.pendingXml.getD "") st1
      ({ r.1 with pendingXml := none }, r.2)
    else
      (st1, [])
  | .save xml =>
    if truthyStr xml && (xml != st.lastLoadedXml) then
      (st, pushState sessionId (xml.getD ""))
    else
      (st, [])
  | .exportDone data =>
    if truthyStr data then
      (st, pushState sessionId (data.getD ""))
    else
      (st, [])
  | .autosave xml =>
    if truthyStr xml && (xml != st.lastLoadedXml) then
      (st, pushState sessionId (xml.getD ""))
    else
      (st, [])
  | .unknown => (st, [])

/-- Source `pollState()` handling a completed fetch: `resp` is `none` when the
fetch failed or returned non-OK, otherwise the `{version, xml}` of the
response body.  Loads only when `state.version` is truthy, strictly greater
than `currentVersion`, and `state.xml` is truthy. -/
def pollState (sessionId : String) (resp : Option (Nat × Option String))
    (st : ClientState) : ClientState × List ClientAction :=
  if sessionId.isEmpty then (st, [])
  else
    match resp with
    | none => (st, [])
    | some (version, xml) =>
      if version != 0 && decide (st.currentVersion < version) && truthyStr xml then
        loadDiagram (xml.getD "") { st with currentVersion := version }
      else
        (st, [])

/-- Definition `writeAll id ws s` performs the sequence of writes `ws` (each an
`(xml, time)` pair) to session `id` via `setState`, returning the versions
in call order and the final store. -/
def writeAll (id : String) (ws : List (String × Nat)) (s : Store) :
    List Nat × Store :=
  match ws with
  | [] => ([], s)
  | (xml, now) :: rest =>
    let r := setState id xml now s
    let r' := writeAll id rest r.2
    (r.1 :: r'.1, r'.2)

/-! ## Store lemmas -/

lemma find?_replace_self (k : String) (v : SessionState) (s : Store)
    (h : List.any s (fun e => e.1 == k) = true) :
    List.find? (fun e => e.1 == k)
      (List.map (fun e => if e.1 == k then (k, v) else e) s) = some (k, v) := by
  induction s with
  | nil => simp at h
  | cons e t ih =>
    cases he : (e.1 == k) with
    | true =>
      rw [List.map_cons, if_pos he]
      exact List.find?_cons_of_pos _ (by simp)
    | false =>
      rw [List.any_cons, he, Bool.false_or] at h
      rw [List.map_cons, if_neg (by simp [he]),
        List.find?_cons_of_neg _ (by simp [he])]
      exact ih h

lemma find?_append_fresh (k : String) (v : SessionState) (s : Store)
    (h : List.any s (fun e => e.1 == k) = false) :
    List.find? (fun e => e.1 == k) (s ++ [(k, v)]) = some (k, v) := by
  induction s with
  | nil => simp [List.find?_cons]
  | cons e t ih =>
    rw [List.any_cons] at h
    rcases Bool.or_eq_false_iff.mp h with ⟨he, ht⟩
    simp only [List.cons_append, List.find?_cons, he]
    exact ih ht

lemma getState_setState_self (id xml : String) (now : Nat) (s : Store) :
    getState id (setState id xml now s).2 =
      some ⟨xml, priorVersion id s + 1, now⟩ := by
  show mapGet id (mapSet id ⟨xml, priorVersion id s + 1, now⟩ s) = _
  unfold mapGet mapSet
  cases h : List.any s (fun e => e.1 == id) with
  | true =>
    rw [if_pos rfl, find?_replace_self id _ s h]
    rfl
  | false =>
    rw [if_neg (by simp), find?_append_fresh id _ s h]
    rfl

lemma setState_fst (id xml : String) (now : Nat) (s : Store) :
    (setState id xml now s).1 = priorVersion id s + 1 := rfl

lemma priorVersion_setState_self (id xml : String) (now : Nat) (s : Store) :
    priorVersion id (setState id xml now s).2 = priorVersion id s + 1 := by
  unfold priorVersion
  rw [getState_setState_self]
  rfl

lemma getState_eq_none_of_fresh (id : String) (s : Store)
    (h : id ∉ List.map Prod.fst s) :
    getState id s = none := by
  unfold getState mapGet
  have hfind : List.find? (fun e => e.1 == id) s = none := by
    refine List.find?_eq_none.mpr ?_
    intro e he hbe
    exact h (List.mem_map.mpr ⟨e, he, by simpa using hbe⟩)
  rw [hfind]
  rfl

lemma writeAll_spec (id : String) (ws : List (String × Nat)) :
    ∀ s : Store,
      (writeAll id ws s).1 =
        List.range' (priorVersion id s + 1) ws.length ∧
      (ws = [] ∧ (writeAll id ws s).2 = s ∨
        ∃ r, getState id (writeAll id ws s).2 = some r ∧
          r.version = priorVersion id s + ws.length) := by
  induction ws with
  | nil => intro s; exact ⟨by simp [writeAll], Or.inl ⟨rfl, rfl⟩⟩
  | cons w rest ih =>
    intro s
    obtain ⟨xml, now⟩ := w
    have hset := getState_setState_self id xml now s
    have hprior := priorVersion_setState_self id xml now s
    obtain ⟨ihv, ihr⟩ := ih (setState id xml now s).2
    constructor
    · show (setState id xml now s).1 :: (writeAll id rest (setState id xml now s).2).1 = _
      rw [ihv, setState_fst, hprior, List.length_cons, List.range'_succ]
    · show _ ∨ ∃ r, getState id (writeAll id rest (setState id xml now s).2).2 = some r ∧ _
      rcases ihr with ⟨hnil, heq⟩ | ⟨r, hr, hv⟩
      · refine Or.inr ⟨⟨xml, priorVersion id s + 1, now⟩, ?_, ?_⟩
        · rw [heq, hset]
        · simp [hnil]
      · refine Or.inr ⟨r, hr, ?_⟩
        rw [hv, hprior, List.length_cons]
        omega

lemma handleRequest_state_path (m : Method) (sid mcp : Option String)
    (b : PostBody) (s : Store) (now : Nat) :
    handleRequest ⟨m, "/api/state", sid, mcp, b⟩ s now =
      if m = .OPTIONS then (⟨204, .empty⟩, s)
      else handleStateApi m sid b s now := by
  by_cases hm : m = .OPTIONS
  · simp [handleRequest, hm]
  · simp [handleRequest, hm]

lemma truthyStr_some_ne (id : String) (h : id ≠ "") :
    truthyStr (some id) = true := by
  have : id.isEmpty = false := by
    cases he : id.isEmpty with
    | false => rfl
    | true => exact absurd ((String.isEmpty_iff id).mp he) h
  simp [truthyStr, this]

/-! ## Claims about the session store and state API -/

/-- C1: starting from a store with no record for a session id, the versions
returned by a sequence of `setState` calls are exactly `1, 2, 3, …` in call
order; each write computes `newVersion = priorVersion + 1` with
`priorVersion = 0` when no record exists, and after a nonempty sequence the
stored record's version equals the number of writes, the last returned
version. -/
theorem versions_sequential (id : String) (s : Store) (ws : List (String × Nat))
    (h : getState id s = none) :
    (writeAll id ws s).1 = List.range' 1 ws.length
    ∧ (∀ xml now s', (setState id xml now s').1 = priorVersion id s' + 1)
    ∧ priorVersion id s = 0
    ∧ (ws ≠ [] → ∃ r, getState id (writeAll id ws s).2 = some r ∧
        r.version = ws.length ∧
        (writeAll id ws s).1.getLast? = some r.version) := by
  have hprior : priorVersion id s = 0 := by unfold priorVersion; rw [h]
  obtain ⟨hv, hr⟩ := writeAll_spec id ws s
  rw [hprior] at hv hr
  refine ⟨by simpa using hv, fun xml now s' => setState_fst id xml now s', hprior, ?_⟩
  intro hne
  rcases hr with ⟨hnil, _⟩ | ⟨r, hget, hver⟩
  · exact absurd hnil hne
  · have hver' : r.version = ws.length := by simpa using hver
    refine ⟨r, hget, hver', ?_⟩
    have hlen : ws.length ≠ 0 := fun h0 => hne (List.length_eq_zero.mp h0)
    obtain ⟨n, hn⟩ := Nat.exists_eq_succ_of_ne_zero hlen
    rw [hv, hn, List.range'_1_concat, List.getLast?_concat, hver', hn]
    congr 1
    omega

/-- Witness for C1 at a fresh session "s" in an empty store with three writes. -/
theorem versions_sequential_witness :
    getState "s" ([] : Store) = none ∧
    (writeAll "s" [("A", 5), ("B", 7), ("C", 9)] []).1 = [1, 2, 3] := by
  have h := versions_sequential "s" [] [("A", 5), ("B", 7), ("C", 9)] (by decide)
  exact ⟨by decide, h.1.trans (by decide)⟩

/-- C2 counterexample: the empty string is a session id with zero prior
writes, yet a GET on the state path with `sessionId=""` yields 400, not the
200 zero-sentinel form the claim asserts for every such id. -/
theorem read_fresh_counterexample :
    getState "" ([] : Store) = none
    ∧ handleRequest ⟨.GET, "/api/state", some "", none, .malformed⟩ [] 0
        = (⟨400, .err "sessionId required"⟩, ([] : Store))
    ∧ (handleRequest ⟨.GET, "/api/state", some "", none, .malformed⟩ [] 0).1.status
        ≠ 200 := by
  refine ⟨by decide, ?_, by decide⟩
  decide

/-- C2 (amended): for every session id with zero prior writes, `getState`
returns `none`; for every such id other than the empty string, a GET on the
state path returns 200 with body exactly `{xml: null, version: 0,
lastUpdated: null}` and leaves the store unchanged. -/
theorem read_fresh_amended (id : String) (s : Store) (now : Nat)
    (mcp : Option String) (b : PostBody)
    (h : id ∉ List.map Prod.fst s) :
    getState id s = none
    ∧ (id ≠ "" → handleRequest ⟨.GET, "/api/state", some id, mcp, b⟩ s now
        = (⟨200, .state none 0 none⟩, s)) := by
  have hnone := getState_eq_none_of_fresh id s h
  refine ⟨hnone, fun hne => ?_⟩
  rw [handleRequest_state_path, if_neg (by simp)]
  show (if !truthyStr (some id) then _ else _) = _
  rw [truthyStr_some_ne id hne]
  show (match getState id s with
        | some st => _
        | none => ((⟨200, .state none 0 none⟩ : Response), s)) = _
  rw [hnone]

/-- Witness for the amended C2 at id "s" over a store holding only "t". -/
theorem read_fresh_amended_witness :
    ("s" : String) ∉ List.map Prod.fst ([("t", ⟨"x", 1, 0⟩)] : Store)
    ∧ handleRequest ⟨.GET, "/api/state", some "s", none, .malformed⟩
        [("t", ⟨"x", 1, 0⟩)] 0
        = (⟨200, .state none 0 none⟩, ([("t", ⟨"x", 1, 0⟩)] : Store)) := by
  refine ⟨by decide, ?_⟩
  exact ((read_fresh_amended "s" [("t", ⟨"x", 1, 0⟩)] 0 none .malformed
    (by decide)).2 (by decide))

/-- C3 counterexample: writing the empty string succeeds (version 1 is
assigned and the record stores `xml = ""`), but the GET handler renders
`state?.xml || null` as `null`, not the stored empty string. -/
theorem write_read_counterexample :
    (setState "s" "" 0 []).1 = 1
    ∧ getState "s" (setState "s" "" 0 []).2 = some ⟨"", 1, 0⟩
    ∧ handleRequest ⟨.GET, "/api/state", some "s", none, .malformed⟩
        (setState "s" "" 0 []).2 3
        = (⟨200, .state none 1 (some 0)⟩, (setState "s" "" 0 []).2)
    ∧ (handleRequest ⟨.GET, "/api/state", some "s", none, .malformed⟩
        (setState "s" "" 0 []).2 3).1.body
        ≠ .state (some "") 1 (some 0) := by
  refine ⟨by decide, by decide, by decide, by decide⟩

/-- C3 (amended): for every non-empty session id and every non-empty xml,
after `setState` a GET on the state path returns the stored xml string with
the returned version and the write's timestamp, leaving the store unchanged;
writes of the empty string still succeed and are stored, but read back as
`xml: null`.  After `write(id,"A")` then `write(id,"B")` on a fresh session
the stored record is `{xml:"B", version: 2}`. -/
theorem write_then_read_amended (id xml : String) (s : Store) (now t : Nat)
    (hid : id ≠ "") (hx : xml ≠ "") :
    handleRequest ⟨.GET, "/api/state", some id, none, .malformed⟩
        (setState id xml now s).2 t
      = (⟨200, .state (some xml) (setState id xml now s).1 (some now)⟩,
          (setState id xml now s).2)
    ∧ (id ∉ List.map Prod.fst s →
        getState id (setState id "B" now (setState id "A" now s).2).2
          = some ⟨"B", 2, now⟩) := by
  constructor
  · rw [handleRequest_state_path, if_neg (by simp)]
    show (if !truthyStr (some id) then _ else _) = _
    rw [truthyStr_some_ne id hid]
    show (match getState id (setState id xml now s).2 with
          | some st =>
            ((⟨200, .state (if st.xml.isEmpty then none else some st.xml)
                st.version (some st.lastUpdated)⟩ : Response),
              (setState id xml now s).2)
          | none => _) = _
    rw [getState_setState_self]
    have hxe : xml.isEmpty = false := by
      cases he : xml.isEmpty with
      | false => rfl
      | true => exact absurd ((String.isEmpty_iff xml).mp he) hx
    simp only [hxe, Bool.false_eq_true, if_false]
    rfl
  · intro hfresh
    rw [getState_setState_self, priorVersion_setState_self]
    have : priorVersion id s = 0 := by
      unfold priorVersion
      rw [getState_eq_none_of_fresh id s hfresh]
    rw [this]

/-- Witness for the amended C3: a write to a fresh session reads back as
the stored string at version 1; a write over an existing record at version 3
reads back as the new string at version 4; and the A-then-B sequence on a
fresh session yields the stored `{xml: "B", version: 2}`. -/
theorem write_then_read_amended_witness :
    handleRequest ⟨.GET, "/api/state", some "s", none, .malformed⟩
        (setState "s" "hello" 4 []).2 9
      = (⟨200, .state (some "hello") 1 (some 4)⟩, (setState "s" "hello" 4 []).2)
    ∧ handleRequest ⟨.GET, "/api/state", some "s", none, .malformed⟩
        (setState "s" "new" 6 [("s", ⟨"old", 3, 2⟩)]).2 9
      = (⟨200, .state (some "new") 4 (some 6)⟩,
          (setState "s" "new" 6 [("s", ⟨"old", 3, 2⟩)]).2)
    ∧ getState "s" (setState "s" "B" 4 (setState "s" "A" 4 []).2).2
        = some ⟨"B", 2, 4⟩ := by
  have h1 := write_then_read_amended "s" "hello" [] 4 9 (by decide) (by decide)
  have h2 := write_then_read_amended "s" "new" [("s", ⟨"old", 3, 2⟩)] 6 9
    (by decide) (by decide)
  exact ⟨h1.1.trans (by decide), h2.1.trans (by decide), h1.2 (by decide)⟩

/-- C4: a POST to the state path whose body is unparsable yields 400
`{error: "Invalid JSON"}`, and one whose parsed body lacks a (truthy)
`sessionId` yields 400 `{error: "sessionId required"}`; in both cases the
store is returned completely unchanged, so no record is created or modified
and no version is assigned. -/
theorem post_invalid_no_mutation (s : Store) (now : Nat)
    (q mcp sid : Option String) (xml : String) :
    handleRequest ⟨.POST, "/api/state", q, mcp, .malformed⟩ s now
      = (⟨400, .err "Invalid JSON"⟩, s)
    ∧ (truthyStr sid = false →
        handleRequest ⟨.POST, "/api/state", q, mcp, .parsed sid xml⟩ s now
          = (⟨400, .err "sessionId required"⟩, s)) := by
  constructor
  · rw [handleRequest_state_path, if_neg (by simp)]
    rfl
  · intro hsid
    rw [handleRequest_state_path, if_neg (by simp)]
    show (if !truthyStr sid then _ else _) = _
    rw [hsid]
    rfl

/-- Witness for C4: a malformed body and a body with a missing sessionId,
against a one-entry store. -/
theorem post_invalid_no_mutation_witness :
    truthyStr none = false
    ∧ handleRequest ⟨.POST, "/api/state", none, none, .malformed⟩
        [("t", ⟨"x", 1, 0⟩)] 5
        = (⟨400, .err "Invalid JSON"⟩, ([("t", ⟨"x", 1, 0⟩)] : Store))
    ∧ handleRequest ⟨.POST, "/api/state", none, none, .parsed none "y"⟩
        [("t", ⟨"x", 1, 0⟩)] 5
        = (⟨400, .err "sessionId required"⟩, ([("t", ⟨"x", 1, 0⟩)] : Store)) := by
  have h := post_invalid_no_mutation [("t", ⟨"x", 1, 0⟩)] 5 none none none "y"
  exact ⟨by decide, h.1, h.2 (by decide)⟩

/-- C10: at the HTTP interface an empty-string session id is treated as
missing: a GET with `sessionId=""` and a POST whose parsed body has
`sessionId: ""` both yield 400 `{error: "sessionId required"}` and leave
the store unchanged. -/
theorem empty_session_id_rejected (s : Store) (now : Nat)
    (mcp q : Option String) (b : PostBody) (xml : String) :
    handleRequest ⟨.GET, "/api/state", some "", mcp, b⟩ s now
      = (⟨400, .err "sessionId required"⟩, s)
    ∧ handleRequest ⟨.POST, "/api/state", q, mcp, .parsed (some "") xml⟩ s now
      = (⟨400, .err "sessionId required"⟩, s) := by
  constructor
  · rw [handleRequest_state_path, if_neg (by simp)]
    rfl
  · rw [handleRequest_state_path, if_neg (by simp)]
    rfl

/-! ## Port negotiation lemmas -/

lemma tryStart_head (bind : Nat → BindResult) (port : Nat) :
    (tryStart bind port).2.head? = some port := by
  induction port using tryStart.induct (b := bind) with
  | case1 x hx => rw [tryStart.eq_def, hx]; rfl
  | case2 x hx hle => rw [tryStart.eq_def, hx]; rw [if_pos hle]; rfl
  | case3 x hx hlt ih => rw [tryStart.eq_def, hx]; rw [if_neg hlt]; rfl
  | case4 x m hx => rw [tryStart.eq_def, hx]; rfl

lemma tryStart_attempts_ne_nil (bind : Nat → BindResult) (port : Nat) :
    (tryStart bind port).2 ≠ [] := by
  intro hnil
  have := tryStart_head bind port
  rw [hnil] at this
  exact Option.noConfusion this

lemma tryStart_attempts_range (bind : Nat → BindResult) (port : Nat) :
    (tryStart bind port).2 = List.range' port (tryStart bind port).2.length := by
  induction port using tryStart.induct (b := bind) with
  | case1 x hx => rw [tryStart.eq_def, hx]; rfl
  | case2 x hx hle => rw [tryStart.eq_def, hx]; rw [if_pos hle]; rfl
  | case3 x hx hlt ih =>
    rw [tryStart.eq_def, hx]; rw [if_neg hlt]
    show x :: (tryStart bind (x + 1)).2 = List.range' x _
    rw [List.length_cons, List.range'_succ]
    exact congrArg (x :: ·) ih
  | case4 x m hx => rw [tryStart.eq_def, hx]; rfl

lemma tryStart_attempts_mem (bind : Nat → BindResult) (port : Nat) :
    ∀ q ∈ (tryStart bind port).2, port ≤ q ∧ (q = port ∨ q ≤ MAX_PORT) := by
  induction port using tryStart.induct (b := bind) with
  | case1 x hx =>
    rw [tryStart.eq_def, hx]
    intro q hq
    have : q = x := by simpa using hq
    exact ⟨this.ge, Or.inl this⟩
  | case2 x hx hle =>
    rw [tryStart.eq_def, hx]; rw [if_pos hle]
    intro q hq
    have : q = x := by simpa using hq
    exact ⟨this.ge, Or.inl this⟩
  | case3 x hx hlt ih =>
    rw [tryStart.eq_def, hx]; rw [if_neg hlt]
    intro q hq
    rcases List.mem_cons.mp hq with hq | hq
    · exact ⟨hq.ge, Or.inl hq⟩
    · obtain ⟨hle', hor⟩ := ih q hq
      refine ⟨by omega, Or.inr ?_⟩
      rcases hor with h1 | h1
      · omega
      · exact h1
  | case4 x m hx =>
    rw [tryStart.eq_def, hx]
    intro q hq
    have : q = x := by simpa using hq
    exact ⟨this.ge, Or.inl this⟩

lemma tryStart_ok (bind : Nat → BindResult) (port : Nat) :
    ∀ p, (tryStart bind port).1 = .ok p →
      bind p = .ok ∧ port ≤ p ∧ (bind port = .addrInUse → port < p) := by
  induction port using tryStart.induct (b := bind) with
  | case1 x hx =>
    rw [tryStart.eq_def, hx]
    intro p hp
    have : x = p := by simpa using hp
    subst this
    exact ⟨hx, le_refl x, fun hbusy => by cases hbusy⟩
  | case2 x hx hle =>
    rw [tryStart.eq_def, hx]; rw [if_pos hle]
    intro p hp
    cases hp
  | case3 x hx hlt ih =>
    rw [tryStart.eq_def, hx]; rw [if_neg hlt]
    intro p hp
    obtain ⟨hb, hle', _⟩ := ih p hp
    exact ⟨hb, by omega, fun _ => by omega⟩
  | case4 x m hx =>
    rw [tryStart.eq_def, hx]
    intro p hp
    cases hp

lemma tryStart_otherErr (bind : Nat → BindResult) (port : Nat) (m : String)
    (h : bind port = .otherErr m) :
    tryStart bind port = (.error (.other m), [port]) := by
  rw [tryStart.eq_def, h]

lemma tryStart_ceiling (bind : Nat → BindResult) (port : Nat)
    (hle : MAX_PORT ≤ port) (h : bind port = .addrInUse) :
    tryStart bind port = (.error .noAvailablePorts, [port]) := by
  rw [tryStart.eq_def, h]
  rw [if_pos hle]

lemma tryStart_allBusy (bind : Nat → BindResult) (port : Nat) :
    port ≤ MAX_PORT → (∀ q, port ≤ q → q ≤ MAX_PORT → bind q = .addrInUse) →
      (tryStart bind port).1 = .error .noAvailablePorts := by
  induction port using tryStart.induct (b := bind) with
  | case1 x hx =>
    intro h1 h2
    rw [h2 x (le_refl x) h1] at hx
    cases hx
  | case2 x hx hle =>
    intro _ _
    rw [tryStart.eq_def, hx]; rw [if_pos hle]
  | case3 x hx hlt ih =>
    intro h1 h2
    rw [tryStart.eq_def, hx]; rw [if_neg hlt]
    exact ih (by omega) (fun q hq1 hq2 => h2 q (by omega) hq2)
  | case4 x m hx =>
    intro h1 h2
    rw [h2 x (le_refl x) h1] at hx
    cases hx

/-! ## Claims about the listener -/

/-- C5: a start attempt begins at the preferred port; retries happen only on
address-in-use, at consecutive increasing ports, never going above the
ceiling `MAX_PORT = 6020` (which is 18 above the default 6002); on reaching
the ceiling without success it fails with the explicit no-available-ports
error instead of retrying; any other bind failure is surfaced at once with
no retry; and a successful bind after the preferred port was occupied lands
strictly above the preferred port. -/
theorem port_negotiation (bind : Nat → BindResult) (port : Nat) :
    MAX_PORT = DEFAULT_PORT + 18
    ∧ (tryStart bind port).2.head? = some port
    ∧ (tryStart bind port).2
        = List.range' port (tryStart bind port).2.length
    ∧ (∀ q ∈ (tryStart bind port).2, q = port ∨ q ≤ MAX_PORT)
    ∧ (∀ p, (tryStart bind port).1 = .ok p →
        bind p = .ok ∧ port ≤ p ∧ (bind port = .addrInUse → port < p))
    ∧ (∀ m, bind port = .otherErr m →
        tryStart bind port = (.error (.other m), [port]))
    ∧ (MAX_PORT ≤ port → bind port = .addrInUse →
        tryStart bind port = (.error .noAvailablePorts, [port]))
    ∧ (port ≤ MAX_PORT →
        (∀ q, port ≤ q → q ≤ MAX_PORT → bind q = .addrInUse) →
        (tryStart bind port).1 = .error .noAvailablePorts) := by
  refine ⟨by decide, tryStart_head bind port, tryStart_attempts_range bind port,
    fun q hq => (tryStart_attempts_mem bind port q hq).2,
    tryStart_ok bind port,
    fun m hm => tryStart_otherErr bind port m hm,
    fun h1 h2 => tryStart_ceiling bind port h1 h2,
    tryStart_allBusy bind port⟩

/-- Witness for C5: with port 6002 occupied and 6003 free, the start
attempt succeeds at 6003, strictly above the preferred port. -/
theorem port_negotiation_witness :
    ((fun q => if q ≤ 6002 then BindResult.addrInUse else BindResult.ok) 6002
      = BindResult.addrInUse)
    ∧ (tryStart (fun q => if q ≤ 6002 then BindResult.addrInUse else BindResult.ok)
        6002).1 = .ok 6003
    ∧ 6002 < 6003 := by
  have heval : tryStart
      (fun q => if q ≤ 6002 then BindResult.addrInUse else BindResult.ok) 6002
      = (.ok 6003, [6002, 6003]) := by
    rw [tryStart.eq_def]
    norm_num [MAX_PORT]
    rw [tryStart.eq_def]
    norm_num
  refine ⟨by norm_num, by rw [heval], ?_⟩
  have h := port_negotiation
    (fun q => if q ≤ 6002 then BindResult.addrInUse else BindResult.ok) 6002
  exact ((h.2.2.2.2.1 6003 (by rw [heval])).2.2) (by norm_num)

/-- C6: a start while the server is installed returns the existing
`serverPort` with no bind attempt and no state change; `stop` clears the
installed flag; a start after `stop` runs the full (nonempty) bind ladder
afresh; and a successful fresh start records exactly the genuinely bound
port as the server's effective port. -/
theorem start_idempotent_stop (bind bind2 : Nat → BindResult) (st : SrvState)
    (port : Nat) :
    (st.started = true →
      startHttpServer bind st port = (.ok st.serverPort, st, []))
    ∧ (stopHttpServer st).started = false
    ∧ (startHttpServer bind2 (stopHttpServer st) port).2.2
        = (tryStart bind2 port).2
    ∧ (tryStart bind2 port).2 ≠ []
    ∧ (∀ p, st.started = false → (startHttpServer bind st port).1 = .ok p →
        getServerPort (startHttpServer bind st port).2.1 = p ∧ bind p = .ok) := by
  refine ⟨?_, ?_, ?_, tryStart_attempts_ne_nil bind2 port, ?_⟩
  · intro h
    unfold startHttpServer
    rw [if_pos h]
  · unfold stopHttpServer
    by_cases h : st.started <;> simp [h]
  · have hstop : (stopHttpServer st).started = false := by
      unfold stopHttpServer
      by_cases h : st.started <;> simp [h]
    unfold startHttpServer
    rw [if_neg (by rw [hstop]; exact Bool.false_ne_true)]
    rcases htry : tryStart bind2 port with ⟨r, attempts⟩
    cases r <;> rfl
  · intro p hst hok
    unfold startHttpServer at hok ⊢
    rw [if_neg (by rw [hst]; exact Bool.false_ne_true)] at hok ⊢
    rcases htry : tryStart bind port with ⟨r, attempts⟩
    rw [htry] at hok
    cases r with
    | ok q =>
      have hq : q = p := by simpa using hok
      subst hq
      refine ⟨rfl, ?_⟩
      have := (tryStart_ok bind port q (by rw [htry])).1
      exact this
    | error e => cases hok

/-- Witness for C6: an installed server at port 6010 is returned as-is; after
stopping, a fresh start with 6002 occupied rebinds to the different port
6003, and that bound port is the recorded effective port. -/
theorem start_idempotent_stop_witness :
    startHttpServer (fun _ => BindResult.ok) ⟨true, 6010⟩ 6002
      = (.ok 6010, ⟨true, 6010⟩, [])
    ∧ (stopHttpServer ⟨true, 6010⟩).started = false
    ∧ (startHttpServer
        (fun q => if q ≤ 6002 then BindResult.addrInUse else BindResult.ok)
        (stopHttpServer ⟨true, 6010⟩) 6002).1 = .ok 6003
    ∧ getServerPort (startHttpServer
        (fun q => if q ≤ 6002 then BindResult.addrInUse else BindResult.ok)
        (stopHttpServer ⟨true, 6010⟩) 6002).2.1 = 6003 := by
  have h1 := start_idempotent_stop (fun _ => BindResult.ok)
    (fun q => if q ≤ 6002 then BindResult.addrInUse else BindResult.ok)
    ⟨true, 6010⟩ 6002
  have heval : tryStart
      (fun q => if q ≤ 6002 then BindResult.addrInUse else BindResult.ok) 6002
      = (.ok 6003, [6002, 6003]) := by
    rw [tryStart.eq_def]
    norm_num [MAX_PORT]
    rw [tryStart.eq_def]
    norm_num
  have hstop : stopHttpServer ⟨true, 6010⟩ = ⟨false, 6010⟩ := rfl
  have hrestart : startHttpServer
      (fun q => if q ≤ 6002 then BindResult.addrInUse else BindResult.ok)
      (stopHttpServer ⟨true, 6010⟩) 6002 = (.ok 6003, ⟨true, 6003⟩, [6002, 6003]) := by
    rw [hstop]
    unfold startHttpServer
    rw [if_neg (by exact Bool.false_ne_true), heval]
  have h2 := start_idempotent_stop
    (fun q => if q ≤ 6002 then BindResult.addrInUse else BindResult.ok)
    (fun _ => BindResult.ok) ⟨false, 6010⟩ 6002
  refine ⟨h1.1 rfl, h1.2.1, by rw [hrestart], ?_⟩
  rw [hstop] at hrestart
  rw [hstop]
  exact (h2.2.2.2.2 6003 rfl (by rw [hrestart])).1

/-! ## Expiry sweep -/

lemma find?_filter_of_nodup (id : String) (p : String × SessionState → Bool)
    (s : Store) (h : StoreWF s) :
    List.find? (fun e => e.1 == id) (List.filter p s) =
      match List.find? (fun e => e.1 == id) s with
      | some e => if p e then some e else none
      | none => none := by
  induction s with
  | nil => rfl
  | cons e t ih =>
    have hwf : StoreWF t := (List.nodup_cons.mp h).2
    have hnotin : e.1 ∉ List.map Prod.fst t := (List.nodup_cons.mp h).1
    cases he : (e.1 == id) with
    | true =>
      have heq : e.1 = id := by simpa using he
      rw [List.find?_cons_of_pos (p := fun z : String × SessionState => z.1 == id) t he]
      by_cases hp : p e = true
      · rw [List.filter_cons_of_pos hp,
          List.find?_cons_of_pos (p := fun z : String × SessionState => z.1 == id) _ he]
        simp [hp]
      · rw [List.filter_cons_of_neg (by simpa using hp)]
        have hnone : List.find? (fun z => z.1 == id) (List.filter p t) = none := by
          refine List.find?_eq_none.mpr ?_
          intro x hx hbe
          have hxt : x ∈ t := List.mem_of_mem_filter hx
          have hx1 : x.1 = id := by simpa using hbe
          exact hnotin (heq ▸ hx1 ▸ List.mem_map.mpr ⟨x, hxt, rfl⟩)
        rw [hnone]
        simp [hp]
    | false =>
      rw [List.find?_cons_of_neg _ (by simp [he])]
      by_cases hp : p e = true
      · rw [List.filter_cons_of_pos hp, List.find?_cons_of_neg _ (by simp [he])]
        exact ih hwf
      · rw [List.filter_cons_of_neg (by simpa using hp)]
        exact ih hwf

/-- C7: one sweep removes exactly the sessions whose `lastUpdated` is more
than `SESSION_TTL` before `now`: a record is in the swept store iff it was
in the store and not expired, an expired session is no longer found, and a
live session is found unchanged. -/
theorem cleanup_exact (s : Store) (now : Nat) (id : String) (hwf : StoreWF s) :
    (∀ e : String × SessionState,
      e ∈ cleanupExpiredSessions now s ↔
        e ∈ s ∧ ¬(SESSION_TTL < now - e.2.lastUpdated))
    ∧ getState id (cleanupExpiredSessions now s) =
        (match getState id s with
         | some r => if SESSION_TTL < now - r.lastUpdated then none else some r
         | none => none) := by
  constructor
  · intro e
    unfold cleanupExpiredSessions
    rw [List.mem_filter]
    simp
  · unfold getState mapGet cleanupExpiredSessions
    rw [find?_filter_of_nodup id _ s hwf]
    cases hf : List.find? (fun e => e.1 == id) s with
    | none => rfl
    | some e =>
      simp only [Option.map_some]
      by_cases hc : SESSION_TTL < now - e.2.lastUpdated
      · simp [hc]
      · simp [hc]

/-- Witness for C7: at time `SESSION_TTL + 1`, the session last written at
time 0 is evicted and the one last written at time 1 survives unchanged. -/
theorem cleanup_exact_witness :
    StoreWF [("a", ⟨"x", 1, 0⟩), ("b", ⟨"y", 1, 1⟩)]
    ∧ getState "a" (cleanupExpiredSessions (SESSION_TTL + 1)
        [("a", ⟨"x", 1, 0⟩), ("b", ⟨"y", 1, 1⟩)]) = none
    ∧ getState "b" (cleanupExpiredSessions (SESSION_TTL + 1)
        [("a", ⟨"x", 1, 0⟩), ("b", ⟨"y", 1, 1⟩)]) = some ⟨"y", 1, 1⟩ := by
  refine ⟨by decide, ?_, ?_⟩
  · exact ((cleanup_exact [("a", ⟨"x", 1, 0⟩), ("b", ⟨"y", 1, 1⟩)]
      (SESSION_TTL + 1) "a" (by decide)).2).trans (by decide)
  · exact ((cleanup_exact [("a", ⟨"x", 1, 0⟩), ("b", ⟨"y", 1, 1⟩)]
      (SESSION_TTL + 1) "b" (by decide)).2).trans (by decide)

/-! ## Route aliasing -/

lemma handleRequest_mcp_state_path (m : Method) (sid mcp : Option String)
    (b : PostBody) (s : Store) (now : Nat) :
    handleRequest ⟨m, "/api/mcp/state", sid, mcp, b⟩ s now =
      if m = .OPTIONS then (⟨204, .empty⟩, s)
      else handleStateApi m sid b s now := by
  by_cases hm : m = .OPTIONS
  · simp [handleRequest, hm]
  · simp [handleRequest, hm]

lemma handleRequest_health_path (m : Method) (sid mcp : Option String)
    (b : PostBody) (s : Store) (now : Nat) :
    handleRequest ⟨m, "/api/health", sid, mcp, b⟩ s now =
      if m = .OPTIONS then (⟨204, .empty⟩, s)
      else (⟨200, .health⟩, s) := by
  by_cases hm : m = .OPTIONS
  · simp [handleRequest, hm]
  · simp [handleRequest, hm]

lemma handleRequest_mcp_health_path (m : Method) (sid mcp : Option String)
    (b : PostBody) (s : Store) (now : Nat) :
    handleRequest ⟨m, "/api/mcp/health", sid, mcp, b⟩ s now =
      if m = .OPTIONS then (⟨204, .empty⟩, s)
      else (⟨200, .health⟩, s) := by
  by_cases hm : m = .OPTIONS
  · simp [handleRequest, hm]
  · simp [handleRequest, hm]

/-- C8: for every method, query parameters, body and store, a request to
`/api/state` yields exactly the response and resulting store of the same
request to `/api/mcp/state`, and likewise `/api/health` matches
`/api/mcp/health`: the short and `/api/mcp/`-prefixed aliases are
behaviorally equivalent. -/
theorem alias_equivalence (m : Method) (sid mcp : Option String)
    (b : PostBody) (s : Store) (now : Nat) :
    handleRequest ⟨m, "/api/state", sid, mcp, b⟩ s now
      = handleRequest ⟨m, "/api/mcp/state", sid, mcp, b⟩ s now
    ∧ handleRequest ⟨m, "/api/health", sid, mcp, b⟩ s now
      = handleRequest ⟨m, "/api/mcp/health", sid, mcp, b⟩ s now := by
  constructor
  · rw [handleRequest_state_path, handleRequest_mcp_state_path]
  · rw [handleRequest_health_path, handleRequest_mcp_health_path]

/-! ## Client state machine claims -/

/-- C9: an `init` that arrives before any XML leaves the pending slot empty,
marks the surface ready and issues no load; XML arriving before `init` is
staged in the single pending slot, where a second arrival overwrites the
first rather than queueing; and on `init` the staged (non-empty) XML is
flushed to the surface exactly once, after which the pending slot is
cleared. -/
theorem client_init_flush (sessionId : String) (st : ClientState)
    (x y : String) :
    (st.pendingXml = none →
      handleDrawioMessage sessionId .init st
        = ({ st with isDrawioReady := true }, []))
    ∧ (st.isDrawioReady = false →
        loadDiagram x st = ({ st with pendingXml := some x }, []))
    ∧ (st.isDrawioReady = false →
        loadDiagram y (loadDiagram x st).1
          = ({ st with pendingXml := some y }, []))
    ∧ (st.isDrawioReady = false → x ≠ "" →
        handleDrawioMessage sessionId .init (loadDiagram x st).1
          = ({ st with isDrawioReady := true, pendingXml := none, lastLoadedXml := some x }, [.load x])) := by
  refine ⟨?_, ?_, ?_, ?_⟩
  · intro hpend
    simp [handleDrawioMessage, hpend, truthyStr]
  · intro hready
    simp [loadDiagram, hready]
  · intro hready
    simp [loadDiagram, hready]
  · intro hready hx
    have hxe : x.isEmpty = false := by
      cases he : x.isEmpty with
      | false => rfl
      | true => exact absurd ((String.isEmpty_iff x).mp he) hx
    simp [loadDiagram, handleDrawioMessage, hready, truthyStr, hxe]

/-- Witness for C9 from the script's initial state with two XML payloads. -/
theorem client_init_flush_witness :
    initialClientState.pendingXml = none
    ∧ handleDrawioMessage "s" .init initialClientState
        = ({ initialClientState with isDrawioReady := true }, [])
    ∧ initialClientState.isDrawioReady = false
    ∧ loadDiagram "d2" (loadDiagram "d1" initialClientState).1
        = ({ initialClientState with pendingXml := some "d2" }, [])
    ∧ handleDrawioMessage "s" .init (loadDiagram "d1" initialClientState).1
        = ({ initialClientState with isDrawioReady := true, pendingXml := none, lastLoadedXml := some "d1" }, [.load "d1"]) := by
  have h := client_init_flush "s" initialClientState "d1" "d2"
  exact ⟨rfl, h.1 rfl, rfl, h.2.2.1 rfl, h.2.2.2 rfl (by decide)⟩

end DrawChart
